import Mathlib

set_option linter.unusedVariables false

namespace Registrar

/-! Association-list model of Rust `HashMap`.  A map is a list of key/value
pairs; `find?` returns the first binding, `insert` replaces the first
binding in place or appends a fresh one at the end (Rust `HashMap::insert`
and the `entry` API update occupied slots in place).  Iteration order of a
Rust `HashMap` is unspecified; the list order is the model's
determinization of it. -/

def AMap.find? {K V : Type} [DecidableEq K] : List (K × V) → K → Option V
  | [], _ => none
  | p :: t, k => if p.1 = k then some p.2 else AMap.find? t k

def AMap.insert {K V : Type} [DecidableEq K] : List (K × V) → K → V → List (K × V)
  | [], k, v => [(k, v)]
  | p :: t, k, v => if p.1 = k then (k, v) :: t else p :: AMap.insert t k v

def AMap.keys {K V : Type} (m : List (K × V)) : List K :=
  m.map Prod.fst

/-- Model of Rust `HashSet::insert`: a no-op when the element is present,
otherwise the element is added (appended, as the model's determinization
of the unspecified set layout). -/
def setInsert {A : Type} [DecidableEq A] (s : List A) (a : A) : List A :=
  if a ∈ s then s else s ++ [a]

/-! Data model, translated from `src/manager.rs`. -/

/-- `Validity` (manager.rs): `Valid | Invalid | Unconfirmed`. -/
inductive Validity : Type
  | Valid
  | Invalid
  | Unconfirmed
deriving DecidableEq, Repr

/-- `IdentityAddress` (manager.rs): an opaque address string. -/
structure IdentityAddress : Type where
  val : String
deriving DecidableEq, Repr

/-- `NetworkAddress` (manager.rs): a network-tagged identity address. -/
inductive NetworkAddress : Type
  | Polkadot (a : IdentityAddress)
  | Kusama (a : IdentityAddress)
deriving DecidableEq, Repr

/-- `FieldAddress` (manager.rs): an opaque field address string. -/
structure FieldAddress : Type where
  val : String
deriving DecidableEq, Repr

/-- `DisplayName` (manager.rs): a display-name string. -/
structure DisplayName : Type where
  val : String
deriving DecidableEq, Repr

abbrev DName := DisplayName

/-- `IdentityField` (manager.rs): the tagged user-claimed field. -/
inductive IdentityField : Type
  | LegalName (a : FieldAddress)
  | DisplayName (d : DName)
  | Email (a : FieldAddress)
  | Web (a : FieldAddress)
  | Twitter (a : FieldAddress)
  | Matrix (a : FieldAddress)
  | PGPFingerprint (a : FieldAddress)
  | Image
  | Additional
deriving DecidableEq, Repr

/-- `IdentityFieldType` (manager.rs): the unit projection of `IdentityField`. -/
inductive IdentityFieldType : Type
  | LegalName
  | DisplayName
  | Email
  | Web
  | Twitter
  | Matrix
  | PGPFingerprint
  | Image
  | Additional
deriving DecidableEq, Repr

/-- `IdentityField::as_type` (manager.rs). -/
def IdentityField.as_type : IdentityField → IdentityFieldType
  | .LegalName _ => .LegalName
  | .DisplayName _ => .DisplayName
  | .Email _ => .Email
  | .Web _ => .Web
  | .Twitter _ => .Twitter
  | .Matrix _ => .Matrix
  | .PGPFingerprint _ => .PGPFingerprint
  | .Image => .Image
  | .Additional => .Additional

/-- `RegistrarIdentityField` (manager.rs): the registrar side of a challenge. -/
structure RegistrarIdentityField : Type where
  field : IdentityField
deriving DecidableEq, Repr

/-- `ExpectedMessage` (manager.rs): the random challenge token.  The random
generation (`ExpectedMessage::gen`) is modelled by passing generated tokens
as explicit parameters where the source calls `gen()`. -/
structure ExpectedMessage : Type where
  val : String
deriving DecidableEq, Repr

/-- `ProvidedMessagePart` (manager.rs). -/
structure ProvidedMessagePart : Type where
  val : String
deriving DecidableEq, Repr

/-- `ProvidedMessage` (manager.rs): ordered candidate tokens of one inbound
message. -/
structure ProvidedMessage : Type where
  parts : List ProvidedMessagePart
deriving DecidableEq, Repr

/-- Model of Rust `str::contains` (substring test), on character lists. -/
def strContains (hay needle : String) : Bool :=
  decide (needle.toList <:+: hay.toList)

/-- `ExpectedMessage::contains` (manager.rs): the first part of the provided
message whose raw value is a substring of the expected value. -/
def ExpectedMessage.contains (em : ExpectedMessage) (msg : ProvidedMessage) :
    Option ProvidedMessagePart :=
  msg.parts.find? (fun part => strContains em.val part.val)

/-- `ExpectMessageChallenge` (manager.rs). -/
structure ExpectMessageChallenge : Type where
  expected_message : ExpectedMessage
  from_ : IdentityField
  to_ : RegistrarIdentityField
  status : Validity
deriving DecidableEq, Repr

/-- `BackAndForthChallenge` (manager.rs). -/
structure BackAndForthChallenge : Type where
  expected_message : ExpectedMessage
  expected_message_back : ExpectedMessage
  from_ : IdentityField
  to_ : RegistrarIdentityField
  first_check_status : Validity
  second_check_status : Validity
deriving DecidableEq, Repr

/-- `CheckDisplayNameChallenge` (manager.rs). -/
structure CheckDisplayNameChallenge : Type where
  status : Validity
  similarities : Option (List DisplayName)
deriving DecidableEq, Repr

/-- `ChallengeStatus` (manager.rs). -/
inductive ChallengeStatus : Type
  | ExpectMessage (c : ExpectMessageChallenge)
  | BackAndForth (c : BackAndForthChallenge)
  | CheckDisplayName (c : CheckDisplayNameChallenge)
  | Unsupported
deriving DecidableEq, Repr

/-- `FieldStatus` (manager.rs). -/
structure FieldStatus : Type where
  field : IdentityField
  is_permitted : Bool
  challenge : ChallengeStatus
deriving DecidableEq, Repr

/-- `FieldStatus::is_valid` (manager.rs lines 556-578). -/
def FieldStatus.is_valid (fs : FieldStatus) : Bool :=
  match fs.challenge with
  | .ExpectMessage state =>
    match state.status with
    | .Valid => true
    | .Invalid => false
    | .Unconfirmed => false
  | .BackAndForth state =>
    if state.first_check_status = Validity.Valid ∧
        state.second_check_status = Validity.Valid then
      true
    else
      false
  | .CheckDisplayName state =>
    match state.status with
    | .Valid => true
    | .Invalid => false
    | .Unconfirmed => false
  | .Unsupported => false

/-- `FieldStatus::is_not_valid` (manager.rs). -/
def FieldStatus.is_not_valid (fs : FieldStatus) : Bool :=
  ! fs.is_valid

/-- `OnChainChallenge` (manager.rs); its random generation is modelled by
explicit values. -/
structure OnChainChallenge : Type where
  val : String
deriving DecidableEq, Repr

/-- `IdentityState` (manager.rs). -/
structure IdentityState : Type where
  net_address : NetworkAddress
  on_chain_challenge : OnChainChallenge
  fields : List (IdentityFieldType × FieldStatus)
deriving DecidableEq, Repr

/-- `IdentityInserted` event (event.rs, used by manager.rs): wraps the
inserted identity. -/
structure IdentityInserted : Type where
  identity : IdentityState
deriving DecidableEq, Repr

/-- `FieldStatusVerified` event (event.rs, used by manager.rs). -/
structure FieldStatusVerified : Type where
  net_address : NetworkAddress
  field_status : FieldStatus
deriving DecidableEq, Repr

/-- `DisplayNamePersisted` event (event.rs, used by manager.rs). -/
structure DisplayNamePersisted : Type where
  net_address : NetworkAddress
  display_name : DisplayName
deriving DecidableEq, Repr

/-- `UpdateChanges` (manager.rs). -/
inductive UpdateChanges : Type
  | NewIdentityInserted (a : NetworkAddress)
  | VerificationValid (f : IdentityField)
  | VerificationInvalid (f : IdentityField)
  | BackAndForthExpected (f : IdentityField)
deriving DecidableEq, Repr

/-- `VerificationOutcome` (manager.rs). -/
structure VerificationOutcome : Type where
  net_address : NetworkAddress
  field_status : FieldStatus
deriving DecidableEq, Repr

/-- `IdentityManager` state (manager.rs lines 45-51): the four maps. -/
structure IdentityManager : Type where
  identities : List (NetworkAddress × List (IdentityFieldType × FieldStatus))
  lookup_addresses : List (IdentityField × List NetworkAddress)
  display_names : List (NetworkAddress × DisplayName)
  on_chain_challenges : List (NetworkAddress × OnChainChallenge)
deriving DecidableEq, Repr

/-! Manager operations, translated from `src/manager.rs`.  Methods that
mutate `&mut self` return the updated state alongside their result. -/

/-- `IdentityManager::update_changes` (manager.rs lines 151-235). -/
def update_changes (current_status : FieldStatus) (verified : FieldStatusVerified) :
    Option UpdateChanges :=
  let verified_status := verified.field_status
  if current_status.is_valid then
    none
  else
    let field := verified_status.field
    match verified_status.challenge with
    | .ExpectMessage challenge =>
      match challenge.status with
      | .Valid => some (.VerificationValid field)
      | .Invalid => some (.VerificationInvalid field)
      | .Unconfirmed => none
    | .CheckDisplayName new_status =>
      match new_status.status with
      | .Valid => some (.VerificationValid field)
      | .Invalid => some (.VerificationInvalid field)
      | .Unconfirmed => none
    | .BackAndForth new_challenge_status =>
      match current_status.challenge with
      | .BackAndForth curr_challenge_status =>
        if curr_challenge_status.first_check_status ≠ Validity.Valid then
          match new_challenge_status.first_check_status with
          | .Valid => some (.VerificationValid field)
          | .Invalid => some (.VerificationInvalid field)
          | .Unconfirmed => none
        else if curr_challenge_status.second_check_status ≠ Validity.Valid then
          match new_challenge_status.second_check_status with
          | .Valid => some (.BackAndForthExpected field)
          | .Invalid => some (.VerificationInvalid field)
          | .Unconfirmed => none
        else
          none
      | _ => none
    | .Unsupported => none

/-- `IdentityManager::update_field` (manager.rs lines 127-148). -/
def update_field (m : IdentityManager) (verified : FieldStatusVerified) :
    Except String (Option UpdateChanges) × IdentityManager :=
  match AMap.find? m.identities verified.net_address with
  | none => (Except.error ("network address not found"), m)
  | some statuses =>
    match AMap.find? statuses verified.field_status.field.as_type with
    | none => (Except.error ("field not found"), m)
    | some current_status =>
      match update_changes current_status verified with
      | some changes =>
        (Except.ok (some changes),
          { m with
            identities := AMap.insert m.identities verified.net_address
              (AMap.insert statuses verified.field_status.field.as_type
                verified.field_status) })
      | none => (Except.ok none, m)

/-- `IdentityManager::lookup_field_status` (manager.rs lines 236-244). -/
def lookup_field_status (m : IdentityManager) (net_address : NetworkAddress)
    (field : IdentityField) : Option FieldStatus :=
  match AMap.find? m.identities net_address with
  | none => none
  | some fields => AMap.find? fields field.as_type

/-- `IdentityManager::lookup_addresses` (manager.rs lines 245-250). -/
def lookup_addresses (m : IdentityManager) (field : IdentityField) :
    Option (List NetworkAddress) :=
  AMap.find? m.lookup_addresses field

/-- The `entry(..).or_insert(..)` step of `insert_identity` on the on-chain
challenge map (manager.rs lines 121-124). -/
def or_insert_challenge (oc : List (NetworkAddress × OnChainChallenge))
    (na : NetworkAddress) (ch : OnChainChallenge) :
    List (NetworkAddress × OnChainChallenge) :=
  match AMap.find? oc na with
  | some _ => oc
  | none => AMap.insert oc na ch

/-- The lookup-table loop of `insert_identity` (manager.rs lines 111-119):
for every inserted field, add the owning address to that field's set. -/
def add_lookups (la : List (IdentityField × List NetworkAddress))
    (fields : List (IdentityFieldType × FieldStatus)) (na : NetworkAddress) :
    List (IdentityField × List NetworkAddress) :=
  fields.foldl (fun acc p =>
    match AMap.find? acc p.2.field with
    | some addrs => AMap.insert acc p.2.field (setInsert addrs na)
    | none => AMap.insert acc p.2.field [na]) la

/-- The reconciliation performed by the `and_modify` body of
`insert_identity` (manager.rs lines 87-108) when the stored fields differ
from the new ones: drop stored entries whose type vanished from the new
fields, retain of the new fields only those whose field address changed
(or are new), and write the retained ones over the stored map.  Returns
the updated stored map together with the retained new fields (the mutated
`new_fields`, which the lookup-table loop then walks). -/
def reconcile (current_fields new_fields : List (IdentityFieldType × FieldStatus)) :
    List (IdentityFieldType × FieldStatus) × List (IdentityFieldType × FieldStatus) :=
  let current1 := current_fields.filter
    (fun p => (AMap.find? new_fields p.1).isSome)
  let new1 := new_fields.filter (fun p =>
    match AMap.find? current1 p.1 with
    | some current => decide (current.field ≠ p.2.field)
    | none => true)
  (new1.foldl (fun acc q => AMap.insert acc q.1 q.2) current1, new1)

/-- `IdentityManager::insert_identity` (manager.rs lines 79-125).  On an
occupied address, the `and_modify` body either returns early when the
stored fields equal the new ones (leaving `new_fields` whole for the
lookup-table loop) or runs `reconcile`. -/
def insert_identity (m : IdentityManager) (inserted : IdentityInserted) :
    IdentityManager :=
  let identity := inserted.identity
  let net_address := identity.net_address
  let new_fields := identity.fields
  match AMap.find? m.identities net_address with
  | some current_fields =>
    if current_fields = new_fields then
      { m with
        lookup_addresses := add_lookups m.lookup_addresses new_fields net_address,
        on_chain_challenges :=
          or_insert_challenge m.on_chain_challenges net_address
            identity.on_chain_challenge }
    else
      let r := reconcile current_fields new_fields
      { m with
        identities := AMap.insert m.identities net_address r.1,
        lookup_addresses := add_lookups m.lookup_addresses r.2 net_address,
        on_chain_challenges :=
          or_insert_challenge m.on_chain_challenges net_address
            identity.on_chain_challenge }
  | none =>
    { m with
      identities := AMap.insert m.identities net_address new_fields,
      lookup_addresses := add_lookups m.lookup_addresses new_fields net_address,
      on_chain_challenges :=
        or_insert_challenge m.on_chain_challenges net_address
          identity.on_chain_challenge }

/-- The per-address loop of `IdentityManager::verify_message` (manager.rs
lines 346-478).  The state is threaded unchanged: the source holds `&self`
and performs no writes. -/
def verify_message_each (m : IdentityManager) (field : IdentityField)
    (provided_message : ProvidedMessage) :
    List NetworkAddress → IdentityManager × Option VerificationOutcome
  | [] => (m, none)
  | net_address :: rest =>
    match lookup_field_status m net_address field with
    | none => verify_message_each m field provided_message rest
    | some field_status =>
      match field_status.challenge with
      | .ExpectMessage challenge =>
        if challenge.status ≠ Validity.Valid then
          if (challenge.expected_message.contains provided_message).isSome then
            (m, some
              { net_address := net_address,
                field_status := { field_status with
                  challenge := ChallengeStatus.ExpectMessage
                    { challenge with status := Validity.Valid } } })
          else
            (m, some
              { net_address := net_address,
                field_status := { field_status with
                  challenge := ChallengeStatus.ExpectMessage
                    { challenge with status := Validity.Invalid } } })
        else
          verify_message_each m field provided_message rest
      | .BackAndForth challenge =>
        if challenge.first_check_status ≠ Validity.Valid then
          if (challenge.expected_message.contains provided_message).isSome then
            (m, some
              { net_address := net_address,
                field_status := { field_status with
                  challenge := ChallengeStatus.BackAndForth
                    { challenge with first_check_status := Validity.Valid } } })
          else
            (m, some
              { net_address := net_address,
                field_status := { field_status with
                  challenge := ChallengeStatus.BackAndForth
                    { challenge with first_check_status := Validity.Invalid } } })
        else if challenge.second_check_status ≠ Validity.Valid then
          if (challenge.expected_message_back.contains provided_message).isSome then
            (m, some
              { net_address := net_address,
                field_status := { field_status with
                  challenge := ChallengeStatus.BackAndForth
                    { challenge with second_check_status := Validity.Valid } } })
          else
            (m, some
              { net_address := net_address,
                field_status := { field_status with
                  challenge := ChallengeStatus.BackAndForth
                    { challenge with second_check_status := Validity.Invalid } } })
        else
          (m, none)
      | .CheckDisplayName _ => verify_message_each m field provided_message rest
      | .Unsupported => verify_message_each m field provided_message rest

/-- `IdentityManager::verify_message` (manager.rs lines 341-481). -/
def verify_message (m : IdentityManager) (field : IdentityField)
    (provided_message : ProvidedMessage) :
    IdentityManager × Option VerificationOutcome :=
  match lookup_addresses m field with
  | some net_addresses => verify_message_each m field provided_message net_addresses
  | none => (m, none)

/-- `IdentityManager::verify_display_name` (manager.rs lines 260-320).  The
similarity engine (`crate::aggregate::display_name::DisplayNameHandler`,
whose module is not among the sources) is abstracted as the parameter
`engine`, mapping the persisted names and the candidate to the violation
list it reports. -/
def verify_display_name
    (engine : List DisplayName → DisplayName → List DisplayName)
    (m : IdentityManager) (net_address : NetworkAddress)
    (display_name : DisplayName) :
    Except String (Option VerificationOutcome) :=
  match lookup_field_status m net_address (IdentityField.DisplayName display_name) with
  | none => Except.error ("no identity found based on display name")
  | some field_status =>
    match field_status.challenge with
    | ChallengeStatus.CheckDisplayName challenge =>
      if challenge.status = Validity.Valid then
        Except.ok none
      else
        let all_display_names := m.display_names.map Prod.snd
        let violations := engine all_display_names display_name
        if violations.isEmpty then
          Except.ok (some
            { net_address := net_address,
              field_status := { field_status with
                challenge := ChallengeStatus.CheckDisplayName
                  { challenge with
                    status := Validity.Valid,
                    similarities := none } } })
        else
          Except.ok (some
            { net_address := net_address,
              field_status := { field_status with
                challenge := ChallengeStatus.CheckDisplayName
                  { challenge with
                    status := Validity.Invalid,
                    similarities := some violations } } })
    | _ =>
      Except.error ("expected to verify display name, found different challenge type")

/-- `IdentityManager::persist_display_name` (manager.rs lines 321-338). -/
def persist_display_name (m : IdentityManager) (persisted : DisplayNamePersisted) :
    Except String Unit × IdentityManager :=
  match lookup_addresses m (IdentityField.DisplayName persisted.display_name) with
  | some addresses =>
    if persisted.net_address ∈ addresses then
      (Except.ok (), { m with
        display_names := AMap.insert m.display_names persisted.net_address
          persisted.display_name })
    else
      (Except.error
        ("attempted to persist display name of an identity which does not exist"), m)
  | none =>
    (Except.error
      ("attempted to persist display name of an identity which does not exist"), m)

/-- `IdentityManager::is_fully_verified` (manager.rs lines 482-492). -/
def is_fully_verified (m : IdentityManager) (net_address : NetworkAddress) :
    Except String Bool :=
  match AMap.find? m.identities net_address with
  | some field_statuses => Except.ok (field_statuses.all (fun p => p.2.is_valid))
  | none =>
    Except.error ("failed to check the full verification status of unknown target")

/-- `From<(IdentityField, RegistrarIdentityField)> for ChallengeStatus`
(manager.rs lines 635-674).  The calls to `ExpectedMessage::gen()` are
modelled by the explicit parameters `gen1` and `gen2`, in source order:
the email arm consumes both, the twitter/matrix arm consumes `gen1`. -/
def challenge_from (gen1 gen2 : ExpectedMessage) (from_ : IdentityField)
    (to_ : RegistrarIdentityField) : ChallengeStatus :=
  match from_ with
  | .LegalName _ | .PGPFingerprint _ | .Web _ | .Image | .Additional =>
    ChallengeStatus.Unsupported
  | .DisplayName _ =>
    ChallengeStatus.CheckDisplayName
      { status := Validity.Unconfirmed, similarities := none }
  | .Email _ =>
    ChallengeStatus.BackAndForth
      { expected_message := gen1, expected_message_back := gen2,
        from_ := from_, to_ := to_,
        first_check_status := Validity.Unconfirmed,
        second_check_status := Validity.Unconfirmed }
  | .Twitter _ | .Matrix _ =>
    ChallengeStatus.ExpectMessage
      { expected_message := gen1, from_ := from_, to_ := to_,
        status := Validity.Unconfirmed }

/-- `From<(IdentityField, RegistrarIdentityField)> for FieldStatus`
(manager.rs lines 585-601). -/
def field_status_from (gen1 gen2 : ExpectedMessage) (from_ : IdentityField)
    (to_ : RegistrarIdentityField) : FieldStatus :=
  let challenge := challenge_from gen1 gen2 from_ to_
  { field := from_,
    is_permitted :=
      match challenge with
      | ChallengeStatus.Unsupported => false
      | _ => true,
    challenge := challenge }

/-! Serialization model for the serde derives of `manager.rs`. -/

/-- Rendering of a `Validity` value under its serde rename attributes
(manager.rs lines 704-713). -/
def Validity.serialize : Validity → String
  | .Valid => "valid"
  | .Invalid => "invalid"
  | .Unconfirmed => "unconfirmed"

/-- Rendering of an `IdentityField` under its serde tag/content attributes
(manager.rs lines 796-819), abbreviated to a tag/payload pair. -/
def IdentityField.serialize : IdentityField → String
  | .LegalName a => "legal_name:" ++ a.val
  | .DisplayName d => "display_name:" ++ d.val
  | .Email a => "email:" ++ a.val
  | .Web a => "web:" ++ a.val
  | .Twitter a => "twitter:" ++ a.val
  | .Matrix a => "matrix:" ++ a.val
  | .PGPFingerprint a => "pgpFingerprint:" ++ a.val
  | .Image => "image"
  | .Additional => "additional"

/-- Model of the derived serde serialization of `BackAndForthChallenge`
(manager.rs lines 684-696): the derive emits every declared field, in
declaration order, as a name/value pair.  The struct declares no skip
attribute on `expected_message_back`, so that field is emitted like the
others. -/
def BackAndForthChallenge.serializeFields (c : BackAndForthChallenge) :
    List (String × String) :=
  [("expected_message", c.expected_message.val),
   ("expected_message_back", c.expected_message_back.val),
   ("from", c.from_.serialize),
   ("to", c.to_.field.serialize),
   ("first_check_status", c.first_check_status.serialize),
   ("second_check_status", c.second_check_status.serialize)]

/-! The violation cap of the display-name adapter
(`src/adapters/display_name.rs`). -/

/-- `Account` (primitives, as used by adapters/display_name.rs). -/
structure Account : Type where
  val : String
deriving DecidableEq, Repr

/-- `VIOLATIONS_CAP` (adapters/display_name.rs line 7). -/
def VIOLATIONS_CAP : Nat := 5

/-- The violation-collecting loop of
`DisplayNameHandler::handle_display_name_matching`
(adapters/display_name.rs lines 52-64): walk the existing names in order,
append each name the similarity test flags, and stop as soon as the list
reaches `VIOLATIONS_CAP`.  The float-valued Jaro test `is_too_similar` is
abstracted as the oracle `too_similar`. -/
def collect_violations (too_similar : Account → Bool) :
    List Account → List Account → List Account
  | [], violations => violations
  | display_name :: rest, violations =>
    let violations' :=
      if too_similar display_name then violations ++ [display_name] else violations
    if violations'.length = VIOLATIONS_CAP then violations'
    else collect_violations too_similar rest violations'

/-- The violation list computed by `handle_display_name_matching` for one
candidate account (adapters/display_name.rs lines 52-64). -/
def handle_display_name_violations (too_similar : Account → Bool)
    (display_names : List Account) : List Account :=
  collect_violations too_similar display_names []

/-- The reverse index covers the stored identities: every field status held
in `identities` has its field registered in `lookup_addresses` with the
owning address a member.  Every state the intended flow produces satisfies
this (fields enter `identities` together with their lookup entry, and
lookup entries are never removed). -/
def CoveredMap (m : IdentityManager) : Prop :=
  ∀ na fmap, AMap.find? m.identities na = some fmap →
    ∀ q ∈ fmap, ∃ addrs,
      AMap.find? m.lookup_addresses q.2.field = some addrs ∧ na ∈ addrs

/-! Concrete fixtures used to evaluate the operations on explicit inputs. -/

def exAddr : NetworkAddress := NetworkAddress.Polkadot { val := "1alice" }

def exRegEmail : RegistrarIdentityField :=
  { field := IdentityField.Email { val := "registrar@web3.foundation" } }

def exEmailField : IdentityField := IdentityField.Email { val := "alice@email.com" }

def exEmailFieldNew : IdentityField := IdentityField.Email { val := "alice@new.com" }

def exBaf (v1 v2 : Validity) : BackAndForthChallenge :=
  { expected_message := { val := "11aa" },
    expected_message_back := { val := "22bb" },
    from_ := exEmailField, to_ := exRegEmail,
    first_check_status := v1, second_check_status := v2 }

def exBafStatus (v1 v2 : Validity) : FieldStatus :=
  { field := exEmailField, is_permitted := true,
    challenge := ChallengeStatus.BackAndForth (exBaf v1 v2) }

def exBafNew : BackAndForthChallenge :=
  { expected_message := { val := "33cc" },
    expected_message_back := { val := "44dd" },
    from_ := exEmailFieldNew, to_ := exRegEmail,
    first_check_status := Validity.Unconfirmed,
    second_check_status := Validity.Unconfirmed }

def exStatusE2 : FieldStatus :=
  { field := exEmailFieldNew, is_permitted := true,
    challenge := ChallengeStatus.BackAndForth exBafNew }

def exChain : OnChainChallenge := { val := "w3f_registrar:00ff" }

def emptyManager : IdentityManager :=
  { identities := [], lookup_addresses := [],
    display_names := [], on_chain_challenges := [] }

def exInsertedOld : IdentityInserted :=
  { identity :=
      { net_address := exAddr, on_chain_challenge := exChain,
        fields := [(IdentityFieldType.Email, exBafStatus Validity.Unconfirmed Validity.Unconfirmed)] } }

def exInsertedNew : IdentityInserted :=
  { identity :=
      { net_address := exAddr, on_chain_challenge := exChain,
        fields := [(IdentityFieldType.Email, exStatusE2)] } }

/-- State after a judgement request for the email `alice@email.com`
followed by a re-submitted request carrying `alice@new.com` instead. -/
def exManagerStale : IdentityManager :=
  insert_identity (insert_identity emptyManager exInsertedOld) exInsertedNew

def exTwitterField : IdentityField := IdentityField.Twitter { val := "@alice" }

def exTwitterStatus (v : Validity) : FieldStatus :=
  { field := exTwitterField, is_permitted := true,
    challenge := ChallengeStatus.ExpectMessage
      { expected_message := { val := "55ee" },
        from_ := exTwitterField,
        to_ := { field := IdentityField.Twitter { val := "@w3f_registrar" } },
        status := v } }

/-- A state holding an identity whose stored email field is not registered
in the reverse index. -/
def exManagerUncov : IdentityManager :=
  { identities := [(exAddr,
      [(IdentityFieldType.Email, exStatusE2),
       (IdentityFieldType.Twitter, exTwitterStatus Validity.Unconfirmed)])],
    lookup_addresses := [],
    display_names := [],
    on_chain_challenges := [(exAddr, exChain)] }

def exInsertedEmailOnly : IdentityInserted :=
  { identity :=
      { net_address := exAddr, on_chain_challenge := exChain,
        fields := [(IdentityFieldType.Email, exStatusE2)] } }

def exDName : DisplayName := { val := "Alice" }

def exDNField : IdentityField := IdentityField.DisplayName exDName

def exCheckUnconfirmed : FieldStatus :=
  { field := exDNField, is_permitted := true,
    challenge := ChallengeStatus.CheckDisplayName
      { status := Validity.Unconfirmed, similarities := none } }

def exManagerDN : IdentityManager :=
  { identities := [(exAddr, [(IdentityFieldType.DisplayName, exCheckUnconfirmed)])],
    lookup_addresses := [(exDNField, [exAddr])],
    display_names := [],
    on_chain_challenges := [(exAddr, exChain)] }

def exEngineEmpty : List DisplayName → DisplayName → List DisplayName :=
  fun _ _ => []

def exManagerValidTwitter : IdentityManager :=
  { identities := [(exAddr, [(IdentityFieldType.Twitter, exTwitterStatus Validity.Valid)])],
    lookup_addresses := [(exTwitterField, [exAddr])],
    display_names := [],
    on_chain_challenges := [(exAddr, exChain)] }

def exMsg : ProvidedMessage := { parts := [{ val := "55ee" }] }

def exAccounts : List Account :=
  [{ val := "a1" }, { val := "a2" }, { val := "a3" },
   { val := "a4" }, { val := "a5" }, { val := "a6" }]

/-- Pair compatibility between a stored field map and an incoming field
map: every stored entry has a type present among the incoming fields, and
every incoming field finds a stored entry of its type carrying the same
field address.  `reconcile` establishes this and is the identity on maps
already satisfying it. -/
def FieldsCompat (c fields : List (IdentityFieldType × FieldStatus)) : Prop :=
  (∀ q ∈ c, (AMap.find? fields q.1).isSome = true)
  ∧ (∀ t w, AMap.find? fields t = some w →
      ∃ cur, AMap.find? c t = some cur ∧ cur.field = w.field)

/-! Lemmas about the map model. -/

@[simp]
theorem AMap.keys_nil {K V : Type} : AMap.keys ([] : List (K × V)) = [] := rfl

@[simp]
theorem AMap.keys_cons {K V : Type} (p : K × V) (t : List (K × V)) :
    AMap.keys (p :: t) = p.1 :: AMap.keys t := rfl

theorem AMap.find?_insert_self {K V : Type} [DecidableEq K]
    (l : List (K × V)) (k : K) (v : V) :
    AMap.find? (AMap.insert l k v) k = some v := by
  induction l with
  | nil => simp [AMap.insert, AMap.find?]
  | cons p t ih =>
    by_cases h : p.1 = k
    · simp [AMap.insert, h, AMap.find?]
    · simp [AMap.insert, h, AMap.find?, ih]

theorem AMap.find?_insert_ne {K V : Type} [DecidableEq K]
    (l : List (K × V)) (k k' : K) (v : V) (h : k' ≠ k) :
    AMap.find? (AMap.insert l k v) k' = AMap.find? l k' := by
  have h2 : ¬ k = k' := fun he => h he.symm
  induction l with
  | nil => simp [AMap.insert, AMap.find?, h2]
  | cons p t ih =>
    by_cases hp : p.1 = k
    · simp [AMap.insert, hp, AMap.find?, h2]
    · simp [AMap.insert, hp, AMap.find?, ih]

theorem AMap.insert_of_find?_eq {K V : Type} [DecidableEq K]
    (l : List (K × V)) (k : K) (v : V) (h : AMap.find? l k = some v) :
    AMap.insert l k v = l := by
  induction l with
  | nil => simp [AMap.find?] at h
  | cons p t ih =>
    by_cases hp : p.1 = k
    · have h2 : p.2 = v := by simpa [AMap.find?, hp] using h
      subst h2
      subst hp
      simp [AMap.insert]
    · have h2 : AMap.find? t k = some v := by simpa [AMap.find?, hp] using h
      simp [AMap.insert, hp, ih h2]

theorem AMap.mem_insert {K V : Type} [DecidableEq K]
    (l : List (K × V)) (k : K) (v : V) (q : K × V)
    (h : q ∈ AMap.insert l k v) : q ∈ l ∨ q = (k, v) := by
  induction l with
  | nil =>
    simp [AMap.insert] at h
    simp [h]
  | cons p t ih =>
    by_cases hp : p.1 = k
    · simp [AMap.insert, hp] at h
      rcases h with h | h
      · right; simp [h]
      · left; simp [h]
    · simp [AMap.insert, hp] at h
      rcases h with h | h
      · left; simp [h]
      · rcases ih h with h2 | h2
        · left; simp [h2]
        · right; exact h2

theorem AMap.find?_eq_none_of_not_mem {K V : Type} [DecidableEq K]
    (l : List (K × V)) (k : K) (h : k ∉ AMap.keys l) :
    AMap.find? l k = none := by
  induction l with
  | nil => simp [AMap.find?]
  | cons p t ih =>
    simp at h
    have h1 : ¬ p.1 = k := fun he => h.1 he.symm
    simp [AMap.find?, h1, ih h.2]

theorem AMap.find?_mem {K V : Type} [DecidableEq K]
    (l : List (K × V)) (k : K) (v : V) (h : AMap.find? l k = some v) :
    (k, v) ∈ l := by
  induction l with
  | nil => simp [AMap.find?] at h
  | cons p t ih =>
    by_cases hp : p.1 = k
    · have h2 : p.2 = v := by simpa [AMap.find?, hp] using h
      subst h2
      subst hp
      simp
    · have h2 : AMap.find? t k = some v := by simpa [AMap.find?, hp] using h
      exact List.mem_cons_of_mem p (ih h2)

theorem AMap.mem_keys_of_find? {K V : Type} [DecidableEq K]
    (l : List (K × V)) (k : K) (v : V) (h : AMap.find? l k = some v) :
    k ∈ AMap.keys l := by
  have h2 := AMap.find?_mem l k v h
  have h3 := List.mem_map_of_mem Prod.fst h2
  simpa [AMap.keys] using h3

theorem AMap.mem_keys_of_mem {K V : Type} (l : List (K × V)) (q : K × V)
    (h : q ∈ l) : q.1 ∈ AMap.keys l :=
  List.mem_map_of_mem Prod.fst h

theorem AMap.keys_filter_subset {K V : Type} (l : List (K × V))
    (p : K × V → Bool) (k : K) (h : k ∈ AMap.keys (l.filter p)) :
    k ∈ AMap.keys l := by
  rcases List.mem_map.mp h with ⟨x, hx, hfst⟩
  exact List.mem_map.mpr ⟨x, (List.mem_filter.mp hx).1, hfst⟩

theorem AMap.nodup_keys_parts {K V : Type} (p : K × V) (t : List (K × V))
    (hnd : (AMap.keys (p :: t)).Nodup) :
    p.1 ∉ AMap.keys t ∧ (AMap.keys t).Nodup := by
  rw [show AMap.keys (p :: t) = p.1 :: AMap.keys t from rfl] at hnd
  exact List.nodup_cons.mp hnd

theorem AMap.find?_eq_of_mem_nodup {K V : Type} [DecidableEq K]
    (l : List (K × V)) (q : K × V) (hnd : (AMap.keys l).Nodup)
    (h : q ∈ l) : AMap.find? l q.1 = some q.2 := by
  induction l with
  | nil => simp at h
  | cons p t ih =>
    have hparts := AMap.nodup_keys_parts p t hnd
    rcases List.mem_cons.mp h with h2 | h2
    · subst h2
      simp [AMap.find?]
    · have hq : q.1 ∈ AMap.keys t := AMap.mem_keys_of_mem t q h2
      have hne : ¬ p.1 = q.1 := by
        intro he
        rw [he] at hparts
        exact hparts.1 hq
      simp [AMap.find?, hne]
      exact ih hparts.2 h2

theorem AMap.find?_filter_nodup {K V : Type} [DecidableEq K]
    (l : List (K × V)) (p : K × V → Bool) (k : K)
    (hnd : (AMap.keys l).Nodup) :
    AMap.find? (l.filter p) k =
      (AMap.find? l k).bind (fun v => if p (k, v) then some v else none) := by
  induction l with
  | nil => simp [AMap.find?]
  | cons q t ih =>
    have hparts := AMap.nodup_keys_parts q t hnd
    by_cases hk : q.1 = k
    · subst hk
      have hnone : AMap.find? (t.filter p) q.1 = none := by
        apply AMap.find?_eq_none_of_not_mem
        intro hmem
        exact hparts.1 (AMap.keys_filter_subset t p q.1 hmem)
      by_cases hp : p q
      · simp [List.filter_cons, hp, AMap.find?, Prod.mk.eta]
      · simp [List.filter_cons, hp, AMap.find?, hnone, Prod.mk.eta]
    · by_cases hp : p q
      · simp [List.filter_cons, hp, AMap.find?, hk, ih hparts.2]
      · simp [List.filter_cons, hp, AMap.find?, hk, ih hparts.2]

theorem AMap.find?_foldl_insert {K V : Type} [DecidableEq K]
    (l : List (K × V)) (m : List (K × V)) (k : K)
    (hnd : (AMap.keys l).Nodup) :
    AMap.find? (l.foldl (fun acc q => AMap.insert acc q.1 q.2) m) k =
      match AMap.find? l k with
      | some v => some v
      | none => AMap.find? m k := by
  induction l generalizing m with
  | nil => simp [AMap.find?]
  | cons q t ih =>
    have hparts := AMap.nodup_keys_parts q t hnd
    simp only [List.foldl_cons]
    rw [ih (AMap.insert m q.1 q.2) hparts.2]
    by_cases hk : q.1 = k
    · subst hk
      have hnone : AMap.find? t q.1 = none :=
        AMap.find?_eq_none_of_not_mem t q.1 hparts.1
      simp [AMap.find?, hnone, AMap.find?_insert_self]
    · simp [AMap.find?, hk,
        AMap.find?_insert_ne m q.1 k q.2 (fun he => hk he.symm)]

theorem AMap.mem_foldl_insert {K V : Type} [DecidableEq K]
    (l : List (K × V)) (m : List (K × V)) (q : K × V)
    (h : q ∈ l.foldl (fun acc r => AMap.insert acc r.1 r.2) m) :
    q ∈ m ∨ q ∈ l := by
  induction l generalizing m with
  | nil =>
    simp at h
    simp [h]
  | cons r t ih =>
    simp only [List.foldl_cons] at h
    rcases ih (AMap.insert m r.1 r.2) h with h2 | h2
    · rcases AMap.mem_insert m r.1 r.2 q h2 with h3 | h3
      · left; exact h3
      · right
        rw [h3]
        simp
    · right
      exact List.mem_cons_of_mem r h2

theorem setInsert_self {A : Type} [DecidableEq A] (s : List A) (a : A) :
    a ∈ setInsert s a := by
  by_cases h : a ∈ s <;> simp [setInsert, h]

theorem setInsert_mem {A : Type} [DecidableEq A] (s : List A) (a b : A)
    (h : b ∈ s) : b ∈ setInsert s a := by
  by_cases h2 : a ∈ s <;> simp [setInsert, h2, h]

theorem setInsert_of_mem {A : Type} [DecidableEq A] (s : List A) (a : A)
    (h : a ∈ s) : setInsert s a = s := by
  simp [setInsert, h]

/-! Frame property of `verify_message`. -/

theorem verify_message_each_fst (m : IdentityManager) (field : IdentityField)
    (msg : ProvidedMessage) (l : List NetworkAddress) :
    (verify_message_each m field msg l).1 = m := by
  induction l with
  | nil => rfl
  | cons na rest ih =>
    simp only [verify_message_each]
    repeat' split
    all_goals first | rfl | exact ih

/-- C10: `verify_message` never mutates the manager: the identities,
lookup_addresses, display_names and on_chain_challenges maps are the same
after the call as before; the computed outcome takes effect only when
later applied through `update_field`. -/
theorem verify_message_frame (m : IdentityManager) (field : IdentityField)
    (msg : ProvidedMessage) :
    (verify_message m field msg).1.identities = m.identities
  ∧ (verify_message m field msg).1.lookup_addresses = m.lookup_addresses
  ∧ (verify_message m field msg).1.display_names = m.display_names
  ∧ (verify_message m field msg).1.on_chain_challenges = m.on_chain_challenges := by
  have h : (verify_message m field msg).1 = m := by
    rw [verify_message]
    split
    · exact verify_message_each_fst m field msg _
    · rfl
  rw [h]
  exact ⟨rfl, rfl, rfl, rfl⟩

/-! Evaluation of `update_changes` on a BackAndForth email field. -/

/-- C1 (code bug): for an email field holding a BackAndForth challenge,
when the first leg is not yet valid and the new status marks the first
check valid, `update_changes` returns `VerificationValid` (the claim and
the notification texts call for `BackAndForthExpected` there); when the
first leg is already valid and the new status marks the second check
valid, it returns `BackAndForthExpected` (the claim calls for
`VerificationValid`).  The two notification variants are swapped. -/
theorem update_changes_back_and_forth_swapped :
    update_changes (exBafStatus Validity.Unconfirmed Validity.Unconfirmed)
        { net_address := exAddr,
          field_status := exBafStatus Validity.Valid Validity.Unconfirmed } =
      some (UpdateChanges.VerificationValid exEmailField)
  ∧ update_changes (exBafStatus Validity.Valid Validity.Unconfirmed)
        { net_address := exAddr,
          field_status := exBafStatus Validity.Valid Validity.Valid } =
      some (UpdateChanges.BackAndForthExpected exEmailField) := by
  constructor <;> decide

/-! Evaluation of `insert_identity` reconciliation on the reverse index. -/

/-- C2 (code bug): after inserting an identity whose email field is
`alice@email.com` and re-inserting it with the email changed to
`alice@new.com`, the reverse index still maps the removed field
`alice@email.com` to the address although only `alice@new.com` is stored:
the claimed biconditional between `lookup_addresses` and `identities`
fails because `insert_identity` never removes stale reverse-index
entries. -/
theorem stale_lookup_after_reconcile :
    AMap.find? exManagerStale.lookup_addresses exEmailField = some [exAddr]
  ∧ AMap.find? exManagerStale.identities exAddr =
      some [(IdentityFieldType.Email, exStatusE2)]
  ∧ exStatusE2.field = exEmailFieldNew
  ∧ exEmailFieldNew ≠ exEmailField := by
  refine ⟨by decide, by decide, by decide, by decide⟩

/-! Serialization of `BackAndForthChallenge`. -/

/-- C3 (code bug): the derived serialization of `BackAndForthChallenge`
carries `expected_message_back`: two challenges differing only in that
field serialize differently, and the emitted key list contains the
`expected_message_back` token, although the comment on the struct demands
the field be skipped. -/
theorem serialize_back_and_forth_exposes_secret :
    BackAndForthChallenge.serializeFields
        (exBaf Validity.Unconfirmed Validity.Unconfirmed) ≠
      BackAndForthChallenge.serializeFields
        { exBaf Validity.Unconfirmed Validity.Unconfirmed with
          expected_message_back := { val := "99zz" } }
  ∧ ("expected_message_back" ∈
      (BackAndForthChallenge.serializeFields
        (exBaf Validity.Unconfirmed Validity.Unconfirmed)).map Prod.fst) := by
  constructor <;> decide

/-! Characterization of `FieldStatus::is_valid`. -/

/-- C5: a BackAndForth field status is valid iff both check statuses are
`Valid`; an Unsupported one is never valid; ExpectMessage and
CheckDisplayName ones are valid iff the inner status is `Valid`. -/
theorem is_valid_characterization (f : IdentityField) (p : Bool)
    (st : BackAndForthChallenge) (em : ExpectMessageChallenge)
    (cd : CheckDisplayNameChallenge) :
    ((FieldStatus.mk f p (ChallengeStatus.BackAndForth st)).is_valid = true ↔
      st.first_check_status = Validity.Valid ∧
        st.second_check_status = Validity.Valid)
  ∧ (FieldStatus.mk f p ChallengeStatus.Unsupported).is_valid = false
  ∧ ((FieldStatus.mk f p (ChallengeStatus.ExpectMessage em)).is_valid = true ↔
      em.status = Validity.Valid)
  ∧ ((FieldStatus.mk f p (ChallengeStatus.CheckDisplayName cd)).is_valid = true ↔
      cd.status = Validity.Valid) := by
  refine ⟨?_, rfl, ?_, ?_⟩
  · constructor
    · intro h
      by_contra hc
      simp [FieldStatus.is_valid] at h
      exact hc h
    · intro h
      simp [FieldStatus.is_valid, h.1, h.2]
  · cases hem : em.status <;> simp [FieldStatus.is_valid, hem]
  · cases hcd : cd.status <;> simp [FieldStatus.is_valid, hcd]

/-- C5 witness: the characterization evaluated at the email fixture with
both checks valid. -/
theorem is_valid_characterization_witness :
    (FieldStatus.mk exEmailField true
        (ChallengeStatus.BackAndForth (exBaf Validity.Valid Validity.Valid))).is_valid
      = true :=
  (is_valid_characterization exEmailField true (exBaf Validity.Valid Validity.Valid)
    { expected_message := { val := "11aa" }, from_ := exEmailField,
      to_ := exRegEmail, status := Validity.Valid }
    { status := Validity.Valid, similarities := none }).1.mpr ⟨rfl, rfl⟩

/-! The challenge factory. -/

/-- C6: the challenge constructed from a user field and the registrar
field is Unsupported for legal_name, web, pgp_fingerprint, image and
additional; CheckDisplayName unconfirmed without similarities for
display_name; BackAndForth with both checks unconfirmed for email;
ExpectMessage unconfirmed for twitter and matrix; and the resulting
field status is not permitted exactly when the challenge is Unsupported. -/
theorem challenge_factory_characterization (gen1 gen2 : ExpectedMessage)
    (a : FieldAddress) (d : DName) (to_ : RegistrarIdentityField) :
    challenge_from gen1 gen2 (IdentityField.LegalName a) to_ = ChallengeStatus.Unsupported
  ∧ challenge_from gen1 gen2 (IdentityField.Web a) to_ = ChallengeStatus.Unsupported
  ∧ challenge_from gen1 gen2 (IdentityField.PGPFingerprint a) to_ = ChallengeStatus.Unsupported
  ∧ challenge_from gen1 gen2 IdentityField.Image to_ = ChallengeStatus.Unsupported
  ∧ challenge_from gen1 gen2 IdentityField.Additional to_ = ChallengeStatus.Unsupported
  ∧ challenge_from gen1 gen2 (IdentityField.DisplayName d) to_ =
      ChallengeStatus.CheckDisplayName
        { status := Validity.Unconfirmed, similarities := none }
  ∧ challenge_from gen1 gen2 (IdentityField.Email a) to_ =
      ChallengeStatus.BackAndForth
        { expected_message := gen1, expected_message_back := gen2,
          from_ := IdentityField.Email a, to_ := to_,
          first_check_status := Validity.Unconfirmed,
          second_check_status := Validity.Unconfirmed }
  ∧ challenge_from gen1 gen2 (IdentityField.Twitter a) to_ =
      ChallengeStatus.ExpectMessage
        { expected_message := gen1, from_ := IdentityField.Twitter a,
          to_ := to_, status := Validity.Unconfirmed }
  ∧ challenge_from gen1 gen2 (IdentityField.Matrix a) to_ =
      ChallengeStatus.ExpectMessage
        { expected_message := gen1, from_ := IdentityField.Matrix a,
          to_ := to_, status := Validity.Unconfirmed }
  ∧ ∀ from_ : IdentityField,
      ((field_status_from gen1 gen2 from_ to_).is_permitted = false ↔
        challenge_from gen1 gen2 from_ to_ = ChallengeStatus.Unsupported) := by
  refine ⟨rfl, rfl, rfl, rfl, rfl, rfl, rfl, rfl, rfl, ?_⟩
  intro from_
  cases from_ <;> simp [field_status_from, challenge_from]

/-- C6 witness: the factory evaluated at a legal-name field and at an
email field. -/
theorem challenge_factory_characterization_witness :
    (field_status_from { val := "11aa" } { val := "22bb" }
        (IdentityField.LegalName { val := "Alice Doe" }) exRegEmail).is_permitted = false :=
  ((challenge_factory_characterization { val := "11aa" } { val := "22bb" }
      { val := "Alice Doe" } exDName exRegEmail).2.2.2.2.2.2.2.2.2
    (IdentityField.LegalName { val := "Alice Doe" })).mpr rfl

/-! The display-name violation cap. -/

theorem collect_violations_eq_take (p : Account → Bool) (names acc : List Account)
    (h : acc.length < VIOLATIONS_CAP) :
    collect_violations p names acc =
      acc ++ (names.filter p).take (VIOLATIONS_CAP - acc.length) := by
  induction names generalizing acc with
  | nil => simp [collect_violations]
  | cons n rest ih =>
    rw [collect_violations]
    by_cases hp : p n
    · have step : (if p n = true then acc ++ [n] else acc) = acc ++ [n] := by
        simp [hp]
      rw [step]
      have htake : VIOLATIONS_CAP - acc.length =
          (VIOLATIONS_CAP - (acc.length + 1)) + 1 := by omega
      rw [List.filter_cons, if_pos hp, htake, List.take_succ_cons]
      by_cases hfull : (acc ++ [n]).length = VIOLATIONS_CAP
      · rw [if_pos hfull]
        have hzero : VIOLATIONS_CAP - (acc.length + 1) = 0 := by
          simp at hfull
          omega
        rw [hzero, List.take_zero]
      · rw [if_neg hfull]
        have hlt : (acc ++ [n]).length < VIOLATIONS_CAP := by
          simp at hfull ⊢
          omega
        rw [ih (acc ++ [n]) hlt]
        have harith : VIOLATIONS_CAP - (acc ++ [n]).length =
            VIOLATIONS_CAP - (acc.length + 1) := by simp
        rw [harith]
        simp
    · have step : (if p n = true then acc ++ [n] else acc) = acc := by
        simp [hp]
      rw [step]
      have hfull : ¬ acc.length = VIOLATIONS_CAP := by omega
      rw [if_neg hfull, ih acc h, List.filter_cons, if_neg hp]

/-- C8: the violation list of the display-name engine never exceeds
`VIOLATIONS_CAP = 5`, and scanning short-circuits: names appearing after
the point where five violations have accumulated do not influence the
result. -/
theorem violations_capped (p : Account → Bool) (names : List Account) :
    (handle_display_name_violations p names).length ≤ VIOLATIONS_CAP
  ∧ ∀ pre post, VIOLATIONS_CAP ≤ (pre.filter p).length →
      handle_display_name_violations p (pre ++ post) =
        handle_display_name_violations p pre := by
  have heq : ∀ ns : List Account,
      handle_display_name_violations p ns = (ns.filter p).take VIOLATIONS_CAP := by
    intro ns
    have h2 := collect_violations_eq_take p ns [] (by simp [VIOLATIONS_CAP])
    simpa [handle_display_name_violations] using h2
  constructor
  · rw [heq]
    simp [List.length_take]
  · intro pre post hlen
    rw [heq, heq, List.filter_append, List.take_append_of_le_length hlen]

/-- C8 witness: with a similarity test flagging everything, six names
yield five violations, and appending a sixth name after five violations
have accumulated does not change the result. -/
theorem violations_capped_witness :
    (handle_display_name_violations (fun _ => true) exAccounts).length ≤ VIOLATIONS_CAP
  ∧ VIOLATIONS_CAP ≤ ((exAccounts.take 5).filter (fun _ => true)).length
  ∧ handle_display_name_violations (fun _ => true) (exAccounts.take 5 ++ exAccounts.drop 5) =
      handle_display_name_violations (fun _ => true) (exAccounts.take 5) :=
  ⟨(violations_capped (fun _ => true) exAccounts).1, by decide,
    (violations_capped (fun _ => true) (exAccounts.take 5)).2
      (exAccounts.take 5) (exAccounts.drop 5) (by decide)⟩

/-! Valid fields ignore further stimuli. -/

@[simp]
theorem is_valid_mk_em (f : IdentityField) (p : Bool) (c : ExpectMessageChallenge) :
    (FieldStatus.mk f p (ChallengeStatus.ExpectMessage c)).is_valid =
      decide (c.status = Validity.Valid) := by
  obtain ⟨e1, f1, t1, st⟩ := c
  cases st <;> rfl

@[simp]
theorem is_valid_mk_baf (f : IdentityField) (p : Bool) (c : BackAndForthChallenge) :
    (FieldStatus.mk f p (ChallengeStatus.BackAndForth c)).is_valid =
      (decide (c.first_check_status = Validity.Valid) &&
        decide (c.second_check_status = Validity.Valid)) := by
  obtain ⟨e1, e2, f1, t1, s1, s2⟩ := c
  cases s1 <;> cases s2 <;> rfl

@[simp]
theorem is_valid_mk_cdn (f : IdentityField) (p : Bool) (c : CheckDisplayNameChallenge) :
    (FieldStatus.mk f p (ChallengeStatus.CheckDisplayName c)).is_valid =
      decide (c.status = Validity.Valid) := by
  obtain ⟨st, sim⟩ := c
  cases st <;> rfl

@[simp]
theorem is_valid_mk_uns (f : IdentityField) (p : Bool) :
    (FieldStatus.mk f p ChallengeStatus.Unsupported).is_valid = false := rfl

theorem verify_message_each_none (m : IdentityManager) (field : IdentityField)
    (msg : ProvidedMessage) (l : List NetworkAddress)
    (h : ∀ na ∈ l, ∀ fs, lookup_field_status m na field = some fs →
      fs.is_valid = true) :
    (verify_message_each m field msg l).2 = none := by
  induction l with
  | nil => rfl
  | cons na rest ih =>
    have hrest : ∀ na' ∈ rest, ∀ fs, lookup_field_status m na' field = some fs →
        fs.is_valid = true :=
      fun na' hm => h na' (List.mem_cons_of_mem _ hm)
    rw [verify_message_each]
    cases hls : lookup_field_status m na field with
    | none => exact ih hrest
    | some fs =>
      have hv := h na (List.mem_cons_self na rest) fs hls
      obtain ⟨f, p, ch⟩ := fs
      cases ch with
      | ExpectMessage c =>
        have hc : c.status = Validity.Valid := by simpa using hv
        simp [hc]
        exact ih hrest
      | BackAndForth c =>
        have hc : c.first_check_status = Validity.Valid ∧
            c.second_check_status = Validity.Valid := by simpa using hv
        simp [hc.1, hc.2]
      | CheckDisplayName c => exact ih hrest
      | Unsupported => exact ih hrest

/-- C4: a field status that is already valid ignores every further
stimulus: `update_field` returns `Ok(None)` leaving the state unchanged,
and `verify_message` produces no outcome when every address holding the
field carries a valid status. -/
theorem valid_field_ignores_stimuli (m : IdentityManager)
    (v : FieldStatusVerified) (field : IdentityField) (msg : ProvidedMessage)
    (sts : List (IdentityFieldType × FieldStatus)) (cur : FieldStatus)
    (h1 : AMap.find? m.identities v.net_address = some sts)
    (h2 : AMap.find? sts v.field_status.field.as_type = some cur)
    (h3 : cur.is_valid = true)
    (h4 : ∀ na, (∃ addrs, lookup_addresses m field = some addrs ∧ na ∈ addrs) →
      ∀ fs, lookup_field_status m na field = some fs → fs.is_valid = true) :
    update_field m v = (Except.ok none, m)
  ∧ (verify_message m field msg).2 = none := by
  constructor
  · simp only [update_field, h1, h2]
    rw [update_changes]
    simp [h3]
  · rw [verify_message]
    cases hla : lookup_addresses m field with
    | none => rfl
    | some addrs =>
      exact verify_message_each_none m field msg addrs
        (fun na hm => h4 na ⟨addrs, hla, hm⟩)

/-- C4 witness: a manager holding one identity whose twitter field is
already valid ignores a re-delivered matching message and a re-applied
valid status. -/
theorem valid_field_ignores_stimuli_witness :
    update_field exManagerValidTwitter
        { net_address := exAddr, field_status := exTwitterStatus Validity.Valid } =
      (Except.ok none, exManagerValidTwitter)
  ∧ (verify_message exManagerValidTwitter exTwitterField exMsg).2 = none :=
  valid_field_ignores_stimuli exManagerValidTwitter
    { net_address := exAddr, field_status := exTwitterStatus Validity.Valid }
    exTwitterField exMsg
    [(IdentityFieldType.Twitter, exTwitterStatus Validity.Valid)]
    (exTwitterStatus Validity.Valid)
    (by decide) (by decide) (by decide)
    (by
      intro na hna fs hfs
      rcases hna with ⟨addrs, haddrs, hmem⟩
      have haddrs2 : addrs = [exAddr] := by
        have : lookup_addresses exManagerValidTwitter exTwitterField = some [exAddr] := by decide
        rw [this] at haddrs
        exact (Option.some.inj haddrs).symm
      subst haddrs2
      have hna2 : na = exAddr := by simpa using hmem
      subst hna2
      have hfs2 : lookup_field_status exManagerValidTwitter exAddr exTwitterField =
          some (exTwitterStatus Validity.Valid) := by decide
      rw [hfs2] at hfs
      have := Option.some.inj hfs
      rw [← this]
      decide)

/-! Error and outcome behavior of `verify_display_name`. -/

/-- C9: `verify_display_name` fails with an error when the address has no
display-name field or when that field's challenge is not a
CheckDisplayName; otherwise, on a challenge that is not yet valid, it
returns an outcome that is Valid with no similarities when the engine
reports no violations, and Invalid carrying the violations when it
reports at least one. -/
theorem verify_display_name_spec
    (engine : List DisplayName → DisplayName → List DisplayName)
    (m : IdentityManager) (na : NetworkAddress) (dn : DisplayName) :
    (lookup_field_status m na (IdentityField.DisplayName dn) = none →
      ∃ e, verify_display_name engine m na dn = Except.error e)
  ∧ (∀ fs, lookup_field_status m na (IdentityField.DisplayName dn) = some fs →
      (∀ ch, fs.challenge ≠ ChallengeStatus.CheckDisplayName ch) →
      ∃ e, verify_display_name engine m na dn = Except.error e)
  ∧ (∀ fs ch, lookup_field_status m na (IdentityField.DisplayName dn) = some fs →
      fs.challenge = ChallengeStatus.CheckDisplayName ch →
      ch.status ≠ Validity.Valid →
      engine (m.display_names.map Prod.snd) dn = [] →
      verify_display_name engine m na dn =
        Except.ok (some
          { net_address := na,
            field_status := { fs with
              challenge := ChallengeStatus.CheckDisplayName
                { status := Validity.Valid, similarities := none } } }))
  ∧ (∀ fs ch v vs, lookup_field_status m na (IdentityField.DisplayName dn) = some fs →
      fs.challenge = ChallengeStatus.CheckDisplayName ch →
      ch.status ≠ Validity.Valid →
      engine (m.display_names.map Prod.snd) dn = v :: vs →
      verify_display_name engine m na dn =
        Except.ok (some
          { net_address := na,
            field_status := { fs with
              challenge := ChallengeStatus.CheckDisplayName
                { status := Validity.Invalid,
                  similarities := some (v :: vs) } } })) := by
  refine ⟨?_, ?_, ?_, ?_⟩
  · intro h
    exact ⟨"no identity found based on display name",
      by simp [verify_display_name, h]⟩
  · intro fs hfs hnotc
    cases hch : fs.challenge with
    | CheckDisplayName c => exact absurd hch (hnotc c)
    | ExpectMessage c =>
      exact ⟨"expected to verify display name, found different challenge type",
        by simp [verify_display_name, hfs, hch]⟩
    | BackAndForth c =>
      exact ⟨"expected to verify display name, found different challenge type",
        by simp [verify_display_name, hfs, hch]⟩
    | Unsupported =>
      exact ⟨"expected to verify display name, found different challenge type",
        by simp [verify_display_name, hfs, hch]⟩
  · intro fs ch hfs hch hnv hemp
    simp [verify_display_name, hfs, hch, hnv, hemp]
  · intro fs ch v vs hfs hch hnv hcons
    simp [verify_display_name, hfs, hch, hnv, hcons]

/-- C9 witness: on a manager holding one identity with an unconfirmed
display-name challenge, an engine reporting no violations yields the
valid outcome, and an unknown address yields an error. -/
theorem verify_display_name_spec_witness :
    verify_display_name exEngineEmpty exManagerDN exAddr exDName =
      Except.ok (some
        { net_address := exAddr,
          field_status := { exCheckUnconfirmed with
            challenge := ChallengeStatus.CheckDisplayName
              { status := Validity.Valid, similarities := none } } })
  ∧ (∃ e, verify_display_name exEngineEmpty exManagerDN
      (NetworkAddress.Kusama { val := "1bob" }) exDName = Except.error e) :=
  ⟨(verify_display_name_spec exEngineEmpty exManagerDN exAddr exDName).2.2.1
      exCheckUnconfirmed { status := Validity.Unconfirmed, similarities := none }
      (by decide) rfl (by decide) rfl,
    (verify_display_name_spec exEngineEmpty exManagerDN
        (NetworkAddress.Kusama { val := "1bob" }) exDName).1 (by decide)⟩

/-! Lemmas about the on-chain challenge map and the lookup-table loop. -/

theorem or_insert_find_isSome (oc : List (NetworkAddress × OnChainChallenge))
    (na : NetworkAddress) (ch : OnChainChallenge) :
    (AMap.find? (or_insert_challenge oc na ch) na).isSome = true := by
  rw [or_insert_challenge]
  cases h : AMap.find? oc na with
  | some c => simp [h]
  | none => simp [AMap.find?_insert_self]

theorem or_insert_of_isSome (oc : List (NetworkAddress × OnChainChallenge))
    (na : NetworkAddress) (ch : OnChainChallenge)
    (h : (AMap.find? oc na).isSome = true) :
    or_insert_challenge oc na ch = oc := by
  rw [or_insert_challenge]
  cases h2 : AMap.find? oc na with
  | some c => rfl
  | none => rw [h2] at h; simp at h

theorem or_insert_preserves (oc : List (NetworkAddress × OnChainChallenge))
    (na na' : NetworkAddress) (ch c : OnChainChallenge)
    (h : AMap.find? oc na' = some c) :
    AMap.find? (or_insert_challenge oc na ch) na' = some c := by
  rw [or_insert_challenge]
  cases h2 : AMap.find? oc na with
  | some c2 => exact h
  | none =>
    have hne : na' ≠ na := by
      intro he
      rw [he, h2] at h
      exact Option.noConfusion h
    rw [AMap.find?_insert_ne oc na na' ch hne]
    exact h

theorem add_lookups_cons (la : List (IdentityField × List NetworkAddress))
    (q : IdentityFieldType × FieldStatus)
    (fs : List (IdentityFieldType × FieldStatus)) (na : NetworkAddress) :
    add_lookups la (q :: fs) na =
      add_lookups
        (match AMap.find? la q.2.field with
          | some addrs => AMap.insert la q.2.field (setInsert addrs na)
          | none => AMap.insert la q.2.field [na]) fs na := rfl

theorem add_lookups_preserves_mem (fs : List (IdentityFieldType × FieldStatus))
    (la : List (IdentityField × List NetworkAddress)) (na : NetworkAddress)
    (f : IdentityField) (addrs : List NetworkAddress) (a : NetworkAddress)
    (h : AMap.find? la f = some addrs) (ha : a ∈ addrs) :
    ∃ addrs2, AMap.find? (add_lookups la fs na) f = some addrs2 ∧ a ∈ addrs2 := by
  induction fs generalizing la addrs with
  | nil => exact ⟨addrs, h, ha⟩
  | cons q fs ih =>
    rw [add_lookups_cons]
    cases hq : AMap.find? la q.2.field with
    | some s0 =>
      by_cases hf : f = q.2.field
      · have haddr : addrs = s0 := by
          rw [hf] at h
          rw [h] at hq
          exact Option.some.inj hq
        refine ih (AMap.insert la q.2.field (setInsert s0 na)) (setInsert s0 na) ?_ ?_
        · rw [hf]
          exact AMap.find?_insert_self la q.2.field (setInsert s0 na)
        · rw [haddr] at ha
          exact setInsert_mem s0 na a ha
      · exact ih _ addrs
          (by rw [AMap.find?_insert_ne la q.2.field f (setInsert s0 na) hf]; exact h) ha
    | none =>
      by_cases hf : f = q.2.field
      · rw [hf] at h
        rw [h] at hq
        exact Option.noConfusion hq
      · exact ih _ addrs
          (by rw [AMap.find?_insert_ne la q.2.field f [na] hf]; exact h) ha

theorem add_lookups_covers (fs : List (IdentityFieldType × FieldStatus))
    (la : List (IdentityField × List NetworkAddress)) (na : NetworkAddress)
    (q : IdentityFieldType × FieldStatus) (hq : q ∈ fs) :
    ∃ addrs, AMap.find? (add_lookups la fs na) q.2.field = some addrs ∧
      na ∈ addrs := by
  induction fs generalizing la with
  | nil => simp at hq
  | cons q0 fs ih =>
    rw [add_lookups_cons]
    rcases List.mem_cons.mp hq with h | h
    · subst h
      cases hq0 : AMap.find? la q.2.field with
      | some s0 =>
        exact add_lookups_preserves_mem fs _ na q.2.field (setInsert s0 na) na
          (AMap.find?_insert_self la q.2.field (setInsert s0 na))
          (setInsert_self s0 na)
      | none =>
        exact add_lookups_preserves_mem fs _ na q.2.field [na] na
          (AMap.find?_insert_self la q.2.field [na]) (List.mem_singleton.mpr rfl)
    · exact ih _ h

theorem add_lookups_of_covered (fs : List (IdentityFieldType × FieldStatus))
    (la : List (IdentityField × List NetworkAddress)) (na : NetworkAddress)
    (hcov : ∀ q ∈ fs, ∃ addrs, AMap.find? la q.2.field = some addrs ∧ na ∈ addrs) :
    add_lookups la fs na = la := by
  induction fs generalizing la with
  | nil => rfl
  | cons q fs ih =>
    rcases hcov q (List.mem_cons_self q fs) with ⟨addrs, hq, hna⟩
    rw [add_lookups_cons]
    simp only [hq]
    rw [setInsert_of_mem addrs na hna, AMap.insert_of_find?_eq la q.2.field addrs hq]
    exact ih la (fun q2 hq2 => hcov q2 (List.mem_cons_of_mem q hq2))

/-! Lemmas about `reconcile`. -/

theorem AMap.nodup_keys_filter {K V : Type} (l : List (K × V)) (p : K × V → Bool)
    (hnd : (AMap.keys l).Nodup) : (AMap.keys (l.filter p)).Nodup :=
  List.Nodup.sublist (List.Sublist.map Prod.fst (List.filter_sublist l)) hnd

theorem fields_compat_refl (n : List (IdentityFieldType × FieldStatus))
    (hnd : (AMap.keys n).Nodup) : FieldsCompat n n := by
  constructor
  · intro q hq
    rw [AMap.find?_eq_of_mem_nodup n q hnd hq]
    rfl
  · intro t w hw
    exact ⟨w, hw, rfl⟩

theorem reconcile_fst_compat (c n : List (IdentityFieldType × FieldStatus))
    (hnd : (AMap.keys n).Nodup) : FieldsCompat (reconcile c n).1 n := by
  rw [reconcile]
  set current1 := c.filter (fun p => (AMap.find? n p.1).isSome) with hcur
  set pred2 := (fun p : IdentityFieldType × FieldStatus =>
    match AMap.find? current1 p.1 with
    | some current => decide (current.field ≠ p.2.field)
    | none => true) with hpred
  set new1 := n.filter pred2 with hnew
  have hnd1 : (AMap.keys new1).Nodup := AMap.nodup_keys_filter n pred2 hnd
  constructor
  · intro q hq
    rcases AMap.mem_foldl_insert new1 current1 q hq with h | h
    · exact (List.mem_filter.mp h).2
    · rw [AMap.find?_eq_of_mem_nodup n q hnd (List.mem_filter.mp h).1]
      rfl
  · intro t w hw
    rw [AMap.find?_foldl_insert new1 current1 t hnd1]
    have hfil := AMap.find?_filter_nodup n pred2 t hnd
    rw [← hnew] at hfil
    cases hn1 : AMap.find? new1 t with
    | some v =>
      rw [hn1, hw] at hfil
      simp at hfil
      rcases hfil with ⟨hpv, hvw⟩
      exact ⟨v, rfl, by rw [hvw]⟩
    | none =>
      rw [hn1, hw] at hfil
      simp at hfil
      cases hcurt : AMap.find? current1 t with
      | none =>
        exfalso
        have : pred2 (t, w) = true := by
          rw [hpred]
          simp [hcurt]
        rw [this] at hfil
        simp at hfil
      | some cur =>
        have hp2 : pred2 (t, w) = false := by
          by_contra hc
          rw [Bool.not_eq_false] at hc
          rw [hc] at hfil
          simp at hfil
        rw [hpred] at hp2
        simp [hcurt] at hp2
        exact ⟨cur, rfl, hp2⟩

theorem reconcile_of_compat (c n : List (IdentityFieldType × FieldStatus))
    (hnd : (AMap.keys n).Nodup) (hc : FieldsCompat c n) :
    reconcile c n = (c, []) := by
  have h1 : c.filter (fun p => (AMap.find? n p.1).isSome) = c :=
    List.filter_eq_self.mpr hc.1
  rw [reconcile]
  rw [h1]
  have h2 : n.filter (fun p : IdentityFieldType × FieldStatus =>
      match AMap.find? c p.1 with
      | some current => decide (current.field ≠ p.2.field)
      | none => true) = [] := by
    rw [List.filter_eq_nil_iff]
    intro q hq
    have hfq := AMap.find?_eq_of_mem_nodup n q hnd hq
    rcases hc.2 q.1 q.2 hfq with ⟨cur, hcur, hfield⟩
    simp [hcur, hfield]
  rw [h2]
  rfl

theorem reconcile_fst_mem (c n : List (IdentityFieldType × FieldStatus))
    (q : IdentityFieldType × FieldStatus) (h : q ∈ (reconcile c n).1) :
    q ∈ c ∨ q ∈ (reconcile c n).2 := by
  rw [reconcile] at h ⊢
  rcases AMap.mem_foldl_insert _ _ q h with h2 | h2
  · left
    exact (List.mem_filter.mp h2).1
  · right
    exact h2

/-! Characterization of `insert_identity`. -/

theorem insert_identity_chain (m : IdentityManager) (i : IdentityInserted) :
    (insert_identity m i).on_chain_challenges =
      or_insert_challenge m.on_chain_challenges i.identity.net_address
        i.identity.on_chain_challenge := by
  cases hf : AMap.find? m.identities i.identity.net_address with
  | none => simp only [insert_identity, hf]
  | some cur =>
    by_cases heq : cur = i.identity.fields
    · simp only [insert_identity, hf, if_pos heq]
    · simp only [insert_identity, hf, if_neg heq]

theorem insert_identity_find (m : IdentityManager) (i : IdentityInserted)
    (hnd : (AMap.keys i.identity.fields).Nodup) :
    ∃ c, AMap.find? (insert_identity m i).identities i.identity.net_address = some c
      ∧ FieldsCompat c i.identity.fields := by
  cases hf : AMap.find? m.identities i.identity.net_address with
  | none =>
    simp only [insert_identity, hf]
    exact ⟨i.identity.fields, AMap.find?_insert_self _ _ _, fields_compat_refl _ hnd⟩
  | some cur =>
    by_cases heq : cur = i.identity.fields
    · simp only [insert_identity, hf, if_pos heq]
      refine ⟨cur, rfl, ?_⟩
      rw [heq]
      exact fields_compat_refl _ hnd
    · simp only [insert_identity, hf, if_neg heq]
      exact ⟨(reconcile cur i.identity.fields).1, AMap.find?_insert_self _ _ _,
        reconcile_fst_compat cur i.identity.fields hnd⟩

theorem covered_insert (m : IdentityManager) (i : IdentityInserted)
    (hcov : CoveredMap m) : CoveredMap (insert_identity m i) := by
  intro na2 fmap hfind q hq
  cases hf : AMap.find? m.identities i.identity.net_address with
  | none =>
    simp only [insert_identity, hf] at hfind ⊢
    by_cases hna : na2 = i.identity.net_address
    · subst hna
      rw [AMap.find?_insert_self] at hfind
      have hfm : fmap = i.identity.fields := (Option.some.inj hfind).symm
      subst hfm
      exact add_lookups_covers _ _ _ q hq
    · rw [AMap.find?_insert_ne _ _ _ _ hna] at hfind
      rcases hcov na2 fmap hfind q hq with ⟨addrs, ha, hmem⟩
      exact add_lookups_preserves_mem _ _ _ _ addrs na2 ha hmem
  | some cur =>
    by_cases heq : cur = i.identity.fields
    · simp only [insert_identity, hf, if_pos heq] at hfind ⊢
      by_cases hna : na2 = i.identity.net_address
      · subst hna
        rw [hf] at hfind
        have hfm : fmap = cur := (Option.some.inj hfind).symm
        subst hfm
        rw [heq] at hq
        exact add_lookups_covers _ _ _ q hq
      · rcases hcov na2 fmap hfind q hq with ⟨addrs, ha, hmem⟩
        exact add_lookups_preserves_mem _ _ _ _ addrs na2 ha hmem
    · simp only [insert_identity, hf, if_neg heq] at hfind ⊢
      by_cases hna : na2 = i.identity.net_address
      · subst hna
        rw [AMap.find?_insert_self] at hfind
        have hfm : fmap = (reconcile cur i.identity.fields).1 :=
          (Option.some.inj hfind).symm
        subst hfm
        rcases reconcile_fst_mem cur i.identity.fields q hq with h2 | h2
        · rcases hcov i.identity.net_address cur hf q h2 with ⟨addrs, ha, hmem⟩
          exact add_lookups_preserves_mem _ _ _ _ addrs _ ha hmem
        · exact add_lookups_covers _ _ _ q h2
      · rw [AMap.find?_insert_ne _ _ _ _ hna] at hfind
        rcases hcov na2 fmap hfind q hq with ⟨addrs, ha, hmem⟩
        exact add_lookups_preserves_mem _ _ _ _ addrs na2 ha hmem

/-- C7 (amended): on any state whose reverse index covers its stored
fields — an invariant of all states the intended flow produces — inserting
an identity twice in a row equals inserting it once; and unconditionally,
`insert_identity` never replaces a stored `OnChainChallenge`. -/
theorem insert_identity_idempotent (m : IdentityManager) (i : IdentityInserted)
    (hnd : (AMap.keys i.identity.fields).Nodup) (hcov : CoveredMap m) :
    insert_identity (insert_identity m i) i = insert_identity m i
  ∧ ∀ na ch, AMap.find? m.on_chain_challenges na = some ch →
      AMap.find? (insert_identity m i).on_chain_challenges na = some ch := by
  constructor
  · obtain ⟨c, hc_find, hc_compat⟩ := insert_identity_find m i hnd
    have hcov1 : CoveredMap (insert_identity m i) := covered_insert m i hcov
    have hoc : (AMap.find? (insert_identity m i).on_chain_challenges
        i.identity.net_address).isSome = true := by
      rw [insert_identity_chain]
      exact or_insert_find_isSome _ _ _
    have hchain : or_insert_challenge (insert_identity m i).on_chain_challenges
        i.identity.net_address i.identity.on_chain_challenge =
        (insert_identity m i).on_chain_challenges :=
      or_insert_of_isSome _ _ _ hoc
    set m1 := insert_identity m i with hm1
    by_cases heq : c = i.identity.fields
    · have hlook : add_lookups m1.lookup_addresses
          i.identity.fields i.identity.net_address = m1.lookup_addresses := by
        apply add_lookups_of_covered
        intro q hq
        rw [← heq] at hq
        exact hcov1 i.identity.net_address c hc_find q hq
      simp only [insert_identity, hc_find, if_pos heq]
      rw [hlook, hchain]
    · have hrec : reconcile c i.identity.fields = (c, []) :=
        reconcile_of_compat c i.identity.fields hnd hc_compat
      have hid : AMap.insert m1.identities i.identity.net_address c =
          m1.identities :=
        AMap.insert_of_find?_eq _ _ _ hc_find
      simp only [insert_identity, hc_find, if_neg heq]
      rw [hrec]
      rw [hid, hchain]
      rfl
  · intro na ch h
    rw [insert_identity_chain]
    exact or_insert_preserves _ _ na _ ch h

/-- C7 counterexample: on a state whose stored email field is missing
from the reverse index, the second identical insert is not a no-op — the
first call reconciles without touching the index, the second call takes
the fields-equal path and registers the field, so the two states differ. -/
theorem insert_identity_not_idempotent_example :
    insert_identity (insert_identity exManagerUncov exInsertedEmailOnly)
        exInsertedEmailOnly ≠
      insert_identity exManagerUncov exInsertedEmailOnly := by decide

/-- C7 witness: inserting Alice's email identity twice into the empty
manager equals inserting it once. -/
theorem insert_identity_idempotent_witness :
    insert_identity (insert_identity emptyManager exInsertedOld) exInsertedOld =
      insert_identity emptyManager exInsertedOld :=
  (insert_identity_idempotent emptyManager exInsertedOld (by decide)
    (by
      intro na fmap h
      simp [AMap.find?, emptyManager] at h)).1

end Registrar
